import Mathlib

/-!
# Verification of the Crypto-Arbitrage aggregation core

Shallow embedding of `src/exchange_data_repository.py` (the symbol
standardizer, the thread-safe ticker repository, the arbitrage detector and
the ingestion-pump loop body) together with the snapshot-handoff behaviour
of the exchange adapters (`src/bybit_spots.py`).

Modelling conventions:
* Python strings are lists of characters (`Str`); `str.upper` is modelled on
  the ASCII range, which is the alphabet actually used by symbols here.
* Python floats are modelled as rationals `ℚ`; a price field that may be
  `None` is `Option ℚ`.
* Python dicts are association lists in insertion order; updating an
  existing key keeps its position, a new key is appended — exactly the
  iteration-order semantics of `dict`.
* Code that can raise (`split` unpacking in `_standardize_symbol`) returns
  `Except Unit`.
* Aliasing-sensitive operations (which dict object is stored/returned) are
  modelled a second time in `RefModel`, where snapshot dicts live in an
  explicit heap and the repository stores references into it.
-/

namespace Crypto

/-- Python strings, modelled as lists of characters. -/
abbrev Str := List Char

/-- `str.upper` on one character (ASCII range, the alphabet of the symbols
this program handles): a lowercase ASCII letter is mapped 32 code points
down, every other character is unchanged. -/
def pyCharUpper (c : Char) : Char :=
  if h : 97 ≤ c.toNat ∧ c.toNat ≤ 122 then
    Char.ofNatAux (c.toNat - 32) (Or.inl (by omega))
  else c

/-- `str.upper`, characterwise. -/
def pyUpper (s : Str) : Str := s.map pyCharUpper

/-- `str.split(sep)` for a one-character separator, as in Python:
`"".split('-') = [""]`, `"A-".split('-') = ["A", ""]`. -/
def pySplitOn (sep : Char) : Str → List Str
  | [] => [[]]
  | c :: cs =>
    if c = sep then [] :: pySplitOn sep cs
    else
      match pySplitOn sep cs with
      | [] => [[c]]
      | p :: ps => (c :: p) :: ps

instance {ε α : Type} [DecidableEq ε] [DecidableEq α] : DecidableEq (Except ε α)
  | .ok a, .ok b =>
    if h : a = b then isTrue (by rw [h]) else isFalse (by intro hh; cases hh; exact h rfl)
  | .ok _, .error _ => isFalse (by intro h; cases h)
  | .error _, .ok _ => isFalse (by intro h; cases h)
  | .error a, .error b =>
    if h : a = b then isTrue (by rw [h]) else isFalse (by intro hh; cases hh; exact h rfl)

/-- Translated from `ExchangeDataRepository._standardize_symbol`
(src/exchange_data_repository.py lines 161-195).  `none` models Python
`None`.  The `'-'` branch does `base, quote = symbol.split('-')`, which
raises `ValueError` unless the split has exactly two parts; a raised
exception is `.error ()`. -/
def standardize_symbol (symbol : Option Str) : Except Unit Str :=
  match symbol with
  | none => .ok "BTC/USDT".data
  | some s =>
    let u := pyUpper s
    if '/' ∈ u then .ok u
    else if '-' ∈ u then
      match pySplitOn '-' u with
      | [base, quote] => .ok (base ++ '/' :: quote)
      | _ => .error ()
    else if u = "BTCUSDT".data then .ok "BTC/USDT".data
    else if u = "BTCUSD".data then .ok "BTC/USD".data
    else if "BTC".data <:+: u ∧ ("USDT".data <:+: u ∨ "USD".data <:+: u) then
      if "USDT".data <:+: u then .ok "BTC/USDT".data
      else .ok "BTC/USD".data
    else .ok u

example : standardize_symbol (some "BTC-USD".data) = .ok "BTC/USD".data := by decide
example : standardize_symbol (some "btcusd".data) = .ok "BTC/USD".data := by decide
example : standardize_symbol (some "BTCUSDT".data) = .ok "BTC/USDT".data := by decide
example : standardize_symbol none = .ok "BTC/USDT".data := by decide
example : standardize_symbol (some "".data) = .ok "".data := by decide
example : standardize_symbol (some "BTC-USD-PERP".data) = .error () := by decide
example : standardize_symbol (some "btcusdtperp".data) = .ok "BTC/USDT".data := by decide

/-! ## Idempotence of the standardizer (claim C8) -/

theorem toNat_pyCharUpper (c : Char) :
    (pyCharUpper c).toNat =
      if 97 ≤ c.toNat ∧ c.toNat ≤ 122 then c.toNat - 32 else c.toNat := by
  unfold pyCharUpper
  split <;> rfl

theorem pyCharUpper_eq_self (c : Char) (h : ¬ (97 ≤ c.toNat ∧ c.toNat ≤ 122)) :
    pyCharUpper c = c := by
  unfold pyCharUpper
  exact dif_neg h

theorem pyCharUpper_idem (c : Char) : pyCharUpper (pyCharUpper c) = pyCharUpper c := by
  by_cases h : 97 ≤ c.toNat ∧ c.toNat ≤ 122
  · apply pyCharUpper_eq_self
    rw [toNat_pyCharUpper, if_pos h]
    omega
  · rw [pyCharUpper_eq_self c h, pyCharUpper_eq_self c h]

theorem pyUpper_fixed_of {s : Str} (h : ∀ c ∈ s, pyCharUpper c = c) : pyUpper s = s := by
  unfold pyUpper
  rw [List.map_congr_left h]
  simp

theorem pyUpper_idem (s : Str) : pyUpper (pyUpper s) = pyUpper s := by
  apply pyUpper_fixed_of
  intro c hc
  obtain ⟨a, -, rfl⟩ := List.mem_map.mp hc
  exact pyCharUpper_idem a

theorem pyCharUpper_of_mem_pyUpper {s : Str} {c : Char} (h : c ∈ pyUpper s) :
    pyCharUpper c = c := by
  obtain ⟨a, -, rfl⟩ := List.mem_map.mp h
  exact pyCharUpper_idem a

theorem mem_of_mem_pySplitOn {sep : Char} {l p : Str} {c : Char}
    (hp : p ∈ pySplitOn sep l) (hc : c ∈ p) : c ∈ l := by
  induction l generalizing p with
  | nil =>
    simp only [pySplitOn, List.mem_singleton] at hp
    subst hp
    cases hc
  | cons d ds ih =>
    simp only [pySplitOn] at hp
    by_cases hd : d = sep
    · rw [if_pos hd] at hp
      rcases List.mem_cons.mp hp with rfl | hp'
      · cases hc
      · exact List.mem_cons_of_mem d (ih hp' hc)
    · rw [if_neg hd] at hp
      rcases hsplit : pySplitOn sep ds with _ | ⟨p₀, ps⟩
      · rw [hsplit, List.mem_singleton] at hp
        subst hp
        rcases List.mem_cons.mp hc with rfl | hc'
        · exact List.mem_cons_self _ _
        · cases hc'
      · rw [hsplit] at hp
        rcases List.mem_cons.mp hp with rfl | hp'
        · rcases List.mem_cons.mp hc with rfl | hc'
          · exact List.mem_cons_self _ _
          · exact List.mem_cons_of_mem d
              (ih (by rw [hsplit]; exact List.mem_cons_self p₀ ps) hc')
        · exact List.mem_cons_of_mem d
            (ih (by rw [hsplit]; exact List.mem_cons_of_mem p₀ hp') hc)

theorem standardize_of_slash {s : Str} (h : '/' ∈ pyUpper s) :
    standardize_symbol (some s) = .ok (pyUpper s) := by
  simp [standardize_symbol, h]

/-- C8 (amended): symbol standardization is idempotent on every input on which
it returns at all: whenever `_standardize_symbol` returns `y` (rather than
raising `ValueError` in the `'-'` branch), applying it to `y` returns `y`
again. -/
theorem standardize_symbol_idem_on_success (x : Option Str) (y : Str)
    (h : standardize_symbol x = .ok y) :
    standardize_symbol (some y) = .ok y := by
  match x with
  | none =>
    simp only [standardize_symbol] at h
    cases h
    decide
  | some s =>
    by_cases h1 : '/' ∈ pyUpper s
    · rw [standardize_of_slash h1] at h
      cases h
      rw [standardize_of_slash (by rw [pyUpper_idem]; exact h1), pyUpper_idem]
    · by_cases h2 : '-' ∈ pyUpper s
      · simp only [standardize_symbol] at h
        rw [if_neg h1, if_pos h2] at h
        rcases hsplit : pySplitOn '-' (pyUpper s) with _ | ⟨base, _ | ⟨quote, _ | _⟩⟩ <;>
          rw [hsplit] at h
        · cases h
        · cases h
        · rw [Except.ok.injEq] at h
          subst h
          have hbase : base ∈ pySplitOn '-' (pyUpper s) := by
            rw [hsplit]; exact List.mem_cons_self _ _
          have hquote : quote ∈ pySplitOn '-' (pyUpper s) := by
            rw [hsplit]; exact List.mem_cons_of_mem _ (List.mem_cons_self _ _)
          have hfix : pyUpper (base ++ '/' :: quote) = base ++ '/' :: quote := by
            apply pyUpper_fixed_of
            intro c hc
            rcases List.mem_append.mp hc with hc' | hc'
            · exact pyCharUpper_of_mem_pyUpper (mem_of_mem_pySplitOn hbase hc')
            · rcases List.mem_cons.mp hc' with rfl | hc''
              · decide
              · exact pyCharUpper_of_mem_pyUpper (mem_of_mem_pySplitOn hquote hc'')
          have hsl : '/' ∈ pyUpper (base ++ '/' :: quote) := by
            rw [hfix]
            exact List.mem_append_right _ (List.mem_cons_self _ _)
          rw [standardize_of_slash hsl, hfix]
        · cases h
      · by_cases h3 : pyUpper s = "BTCUSDT".data
        · simp only [standardize_symbol] at h
          rw [if_neg h1, if_neg h2, if_pos h3] at h
          rw [Except.ok.injEq] at h
          subst h
          decide
        · by_cases h4 : pyUpper s = "BTCUSD".data
          · simp only [standardize_symbol] at h
            rw [if_neg h1, if_neg h2, if_neg h3, if_pos h4] at h
            rw [Except.ok.injEq] at h
            subst h
            decide
          · by_cases h5 : "BTC".data <:+: pyUpper s ∧
                ("USDT".data <:+: pyUpper s ∨ "USD".data <:+: pyUpper s)
            · simp only [standardize_symbol] at h
              rw [if_neg h1, if_neg h2, if_neg h3, if_neg h4, if_pos h5] at h
              by_cases h6 : "USDT".data <:+: pyUpper s
              · rw [if_pos h6, Except.ok.injEq] at h
                subst h
                decide
              · rw [if_neg h6, Except.ok.injEq] at h
                subst h
                decide
            · simp only [standardize_symbol] at h
              rw [if_neg h1, if_neg h2, if_neg h3, if_neg h4, if_neg h5] at h
              rw [Except.ok.injEq] at h
              subst h
              simp only [standardize_symbol]
              rw [pyUpper_idem]
              rw [if_neg h1, if_neg h2, if_neg h3, if_neg h4, if_neg h5]

/-- C8 counterexample: the claim asserts idempotence for every input,
explicitly including strings with one or more `'-'` separators; but on
`"BTC-USD-PERP"` the `'-'` branch executes
`base, quote = symbol.split('-')`, which raises `ValueError` (three parts),
so `standardize(standardize(x))` is not even defined there — no return value
`y` exists for which the idempotence equation could hold. -/
theorem standardize_symbol_multi_dash_raises :
    standardize_symbol (some "BTC-USD-PERP".data) = .error () ∧
    ¬ ∃ y, standardize_symbol (some "BTC-USD-PERP".data) = .ok y ∧
        standardize_symbol (some y) = .ok y := by
  constructor
  · decide
  · rintro ⟨y, hy, -⟩
    rw [show standardize_symbol (some "BTC-USD-PERP".data) = .error () from by decide] at hy
    cases hy

/-- Witness for `standardize_symbol_idem_on_success` at the concrete input
`"btc-usd"`. -/
theorem standardize_symbol_idem_on_success_witness :
    standardize_symbol (some "btc-usd".data) = .ok "BTC/USD".data ∧
    standardize_symbol (some "BTC/USD".data) = .ok "BTC/USD".data := by
  constructor
  · decide
  · exact standardize_symbol_idem_on_success (some "btc-usd".data) "BTC/USD".data (by decide)

/-- C9 (amended): the standardizer maps `"BTC-USD"` to `"BTC/USD"`,
`"BTCUSDT"` to `"BTC/USDT"`, `"btcusd"` to `"BTC/USD"`, and `None` to the
default `"BTC/USDT"`; but the empty string is NOT defaulted — only `None`
is checked (`if symbol is None`), so `""` falls through every branch and is
returned unchanged. -/
theorem standardize_symbol_cases :
    standardize_symbol (some "BTC-USD".data) = .ok "BTC/USD".data ∧
    standardize_symbol (some "BTCUSDT".data) = .ok "BTC/USDT".data ∧
    standardize_symbol (some "btcusd".data) = .ok "BTC/USD".data ∧
    standardize_symbol none = .ok "BTC/USDT".data ∧
    standardize_symbol (some "".data) = .ok "".data := by
  decide

/-- C9 counterexample: the empty string is mapped to itself, not to the
default `"BTC/USDT"` as the claim states. -/
theorem standardize_symbol_empty_not_defaulted :
    standardize_symbol (some "".data) = .ok "".data ∧
    standardize_symbol (some "".data) ≠ .ok "BTC/USDT".data := by
  decide

/-! ## Python dicts as insertion-ordered association lists

A `dict` iterates its keys in insertion order; assigning to an existing key
keeps its position, assigning to a new key appends it.  `dictGet` is
`d.get(k)`, `dictSet` is `d[k] = v`. -/

/-- `d.get(k)`: value of the first (and, for genuine dicts, only) binding. -/
def dictGet {α : Type} (k : Str) : List (Str × α) → Option α
  | [] => none
  | (k', v) :: rest => if k' = k then some v else dictGet k rest

/-- `d[k] = v`: overwrite in place, or append a new binding. -/
def dictSet {α : Type} (k : Str) (v : α) : List (Str × α) → List (Str × α)
  | [] => [(k, v)]
  | (k', v') :: rest =>
    if k' = k then (k', v) :: rest else (k', v') :: dictSet k v rest

theorem dictGet_dictSet_self {α : Type} (k : Str) (v : α) (d : List (Str × α)) :
    dictGet k (dictSet k v d) = some v := by
  induction d with
  | nil => simp [dictGet, dictSet]
  | cons kv rest ih =>
    obtain ⟨k', v'⟩ := kv
    by_cases hk : k' = k
    · simp [dictGet, dictSet, hk]
    · simp [dictGet, dictSet, hk, ih]

theorem dictGet_dictSet_ne {α : Type} {k k' : Str} (h : k' ≠ k) (v : α)
    (d : List (Str × α)) : dictGet k' (dictSet k v d) = dictGet k' d := by
  induction d with
  | nil =>
    simp only [dictSet, dictGet]
    rw [if_neg (fun hh : k = k' => h hh.symm)]
  | cons kv rest ih =>
    obtain ⟨k₀, v₀⟩ := kv
    by_cases hk : k₀ = k
    · subst hk
      simp only [dictSet, if_pos rfl, dictGet]
      rw [if_neg (fun hh : k₀ = k' => h hh.symm), if_neg (fun hh : k₀ = k' => h hh.symm)]
    · simp only [dictSet, if_neg hk, dictGet]
      by_cases hk' : k₀ = k'
      · rw [if_pos hk', if_pos hk']
      · rw [if_neg hk', if_neg hk', ih]

theorem mem_dictSet_self {α : Type} (k : Str) (v : α) (d : List (Str × α)) :
    (k, v) ∈ dictSet k v d := by
  induction d with
  | nil => simp [dictSet]
  | cons kv rest ih =>
    obtain ⟨k₀, v₀⟩ := kv
    by_cases hk : k₀ = k
    · subst hk
      simp [dictSet]
    · simp only [dictSet, if_neg hk]
      exact List.mem_cons_of_mem _ ih

/-! ## The repository, value level

`ExchangeDataRepository` from src/exchange_data_repository.py.  Snapshot
dicts are modelled by their field values here (the five keys the repository
and detector ever read or write); object identity and in-place mutation are
treated separately in `RefModel` below. -/

/-- A canonical ticker snapshot.  `none` is Python `None`; a price field
holds a float, modelled as `ℚ`. -/
structure Ticker where
  symbol : Option Str := none
  mark_price : Option ℚ := none
  bid_price : Option ℚ := none
  ask_price : Option ℚ := none
  volume_24h : Option ℚ := none
deriving DecidableEq

/-- Repository state: `_ticker_data`, `_last_update` (timestamps as `ℚ`
seconds) and the registered callbacks (by identifier, in registration
order). -/
structure Repo where
  tickerData : List (Str × List (Str × Ticker)) := []
  lastUpdate : List (Str × List (Str × ℚ)) := []
  callbacks : List ℕ := []
deriving DecidableEq

/-- Result of one `update_ticker` call: the new repository state plus the
list of callback invocations `(callback, symbol, exchange, snapshot)` made
during the call, in order. -/
structure UpdateResult where
  repo : Repo
  events : List (ℕ × Str × Str × Ticker)
deriving DecidableEq

/-- Translated from `ExchangeDataRepository.update_ticker`
(src/exchange_data_repository.py lines 26-50).  `now` is
`datetime.now().timestamp()`.  A `ValueError` escaping from
`_standardize_symbol` propagates to the caller (`.error`). -/
def update_ticker (r : Repo) (symbol : Option Str) (exchange : Str)
    (ticker : Ticker) (now : ℚ) : Except Unit UpdateResult :=
  match standardize_symbol symbol with
  | .error e => .error e
  | .ok std =>
    let inner := (dictGet std r.tickerData).getD []
    let prev := dictGet exchange inner
    let t := { ticker with symbol := some std }
    let r' : Repo :=
      { tickerData := dictSet std (dictSet exchange t inner) r.tickerData
        lastUpdate :=
          dictSet std (dictSet exchange now ((dictGet std r.lastUpdate).getD []))
            r.lastUpdate
        callbacks := r.callbacks }
    let notify : Bool :=
      match prev with
      | none => true
      | some p => decide (p.mark_price ≠ t.mark_price)
    .ok ⟨r', if notify then r.callbacks.map (fun c => (c, std, exchange, t)) else []⟩

/-- Python truthiness of the optional `exchange` argument: `None` and the
empty string are falsy. -/
def pyTruthy : Option Str → Bool
  | none => false
  | some s => !s.isEmpty

/-- What `get_ticker` can return: Python `None`, a single snapshot, or an
exchange-to-snapshot mapping. -/
inductive GetResult where
  | pyNone
  | snapshot (t : Ticker)
  | mapping (m : List (Str × Ticker))
deriving DecidableEq

/-- Translated from `ExchangeDataRepository.get_ticker`
(src/exchange_data_repository.py lines 52-72).  The branch on the exchange
argument is `if exchange:` — truthiness, not an `is None` test. -/
def get_ticker (r : Repo) (symbol : Option Str) (exchange : Option Str) :
    Except Unit GetResult :=
  match standardize_symbol symbol with
  | .error e => .error e
  | .ok std =>
    match dictGet std r.tickerData with
    | none => .ok .pyNone
    | some inner =>
      if pyTruthy exchange then
        match dictGet (exchange.getD []) inner with
        | none => .ok .pyNone
        | some t => .ok (.snapshot t)
      else .ok (.mapping inner)

/-! ## The arbitrage detector -/

/-- An arbitrage opportunity record, as appended by
`get_arbitrage_opportunities`. -/
structure Opp where
  symbol : Str
  buy_exchange : Str
  buy_price : ℚ
  sell_exchange : Str
  sell_price : ℚ
  profit_percent : ℚ
deriving DecidableEq

/-- Comparison used for the final sort: descending by profit percentage. -/
def oppGE (a b : Opp) : Prop := b.profit_percent ≤ a.profit_percent

instance : DecidableRel oppGE := fun a b =>
  inferInstanceAs (Decidable (b.profit_percent ≤ a.profit_percent))

instance : IsTotal Opp oppGE :=
  ⟨fun a b => le_total b.profit_percent a.profit_percent⟩

instance : IsTrans Opp oppGE :=
  ⟨fun _ _ _ hab hbc => le_trans hbc hab⟩

/-- The inner `for j in range(len(exchange_list))` loop for one buy
exchange at position `i` with usable ask price `bp`: collect the qualifying
sell sides in encounter order. -/
def sellCandidates (std : Str) (active : List (Str × Ticker)) (i : ℕ)
    (bex : Str) (bp : ℚ) (minP : ℚ) : List Opp :=
  active.enum.filterMap fun je =>
    if i = je.1 then none
    else
      match je.2.2.bid_price with
      | none => none
      | some sp =>
        if sp = 0 then none
        else
          if minP ≤ (sp - bp) / bp * 100 then
            some ⟨std, bex, bp, je.2.1, sp, (sp - bp) / bp * 100⟩
          else none

/-- The nested loops of `get_arbitrage_opportunities` (lines 126-154):
every ordered pair of distinct positions in the active dict, in encounter
order, before sorting. -/
def candidates (std : Str) (active : List (Str × Ticker)) (minP : ℚ) : List Opp :=
  active.enum.flatMap fun ie =>
    match ie.2.2.ask_price with
    | none => []
    | some bp =>
      if bp = 0 then []
      else sellCandidates std active ie.1 ie.2.1 bp minP

/-- Detector over a given active dict: collect candidates, then
`opportunities.sort(key=lambda x: x['profit_percent'], reverse=True)`.
Python's `list.sort` with `reverse=True` is a stable descending sort; any
two stable sorts of the same list under the same total preorder agree, so
`List.insertionSort oppGE` (stable: earlier elements stay ahead of later
equal-profit ones) is a faithful model of it. -/
def get_arbitrage_from_active (std : Str) (active : List (Str × Ticker))
    (minP : ℚ) : List Opp :=
  (candidates std active minP).insertionSort oppGE

/-- The staleness filter (lines 114-119): keep entries whose last update is
strictly less than 30 seconds old; a missing timestamp defaults to `0`
(`self._last_update[std_symbol].get(ex, 0)`). -/
def active_exchanges (r : Repo) (std : Str) (now : ℚ) : List (Str × Ticker) :=
  ((dictGet std r.tickerData).getD []).filter fun exd =>
    decide (now - (dictGet exd.1 ((dictGet std r.lastUpdate).getD [])).getD 0 < 30)

/-- Translated from `ExchangeDataRepository.get_arbitrage_opportunities`
(src/exchange_data_repository.py lines 94-159). -/
def get_arbitrage_opportunities (r : Repo) (symbol : Option Str) (minP : ℚ)
    (now : ℚ) : Except Unit (List Opp) :=
  match standardize_symbol symbol with
  | .error e => .error e
  | .ok std =>
    match dictGet std r.tickerData with
    | none => .ok []
    | some _ =>
      .ok (get_arbitrage_from_active std (active_exchanges r std now) minP)

/-! ## Arbitrage detector: enumeration, threshold, sorting, stability -/

theorem mem_sellCandidates_iff {std : Str} {active : List (Str × Ticker)}
    {i : ℕ} {bex : Str} {bp minP : ℚ} {o : Opp} :
    o ∈ sellCandidates std active i bex bp minP ↔
      ∃ (j : ℕ) (sex : Str) (sdata : Ticker) (sp : ℚ),
        active[j]? = some (sex, sdata) ∧ i ≠ j ∧
        sdata.bid_price = some sp ∧ sp ≠ 0 ∧ minP ≤ (sp - bp) / bp * 100 ∧
        o = ⟨std, bex, bp, sex, sp, (sp - bp) / bp * 100⟩ := by
  unfold sellCandidates
  rw [List.mem_filterMap]
  constructor
  · rintro ⟨⟨j, sex, sdata⟩, hmem, hf⟩
    rw [List.mk_mem_enum_iff_getElem?] at hmem
    dsimp only at hf
    by_cases hij : i = j
    · rw [if_pos hij] at hf; cases hf
    · rw [if_neg hij] at hf
      rcases hbid : sdata.bid_price with _ | sp <;> rw [hbid] at hf <;>
        dsimp only at hf
      · cases hf
      · by_cases hsp : sp = 0
        · rw [if_pos hsp] at hf; cases hf
        · rw [if_neg hsp] at hf
          by_cases hmin : minP ≤ (sp - bp) / bp * 100
          · rw [if_pos hmin, Option.some.injEq] at hf
            exact ⟨j, sex, sdata, sp, hmem, hij, hbid, hsp, hmin, hf.symm⟩
          · rw [if_neg hmin] at hf; cases hf
  · rintro ⟨j, sex, sdata, sp, hj, hij, hbid, hsp, hmin, rfl⟩
    refine ⟨(j, sex, sdata), ?_, ?_⟩
    · rw [List.mk_mem_enum_iff_getElem?]; exact hj
    · dsimp only
      rw [if_neg hij, hbid]
      dsimp only
      rw [if_neg hsp, if_pos hmin]

theorem mem_candidates_iff {std : Str} {active : List (Str × Ticker)}
    {minP : ℚ} {o : Opp} :
    o ∈ candidates std active minP ↔
      ∃ (i j : ℕ) (bex : Str) (bdata : Ticker) (sex : Str) (sdata : Ticker) (bp sp : ℚ),
        active[i]? = some (bex, bdata) ∧ active[j]? = some (sex, sdata) ∧ i ≠ j ∧
        bdata.ask_price = some bp ∧ bp ≠ 0 ∧
        sdata.bid_price = some sp ∧ sp ≠ 0 ∧
        minP ≤ (sp - bp) / bp * 100 ∧
        o = ⟨std, bex, bp, sex, sp, (sp - bp) / bp * 100⟩ := by
  unfold candidates
  rw [List.mem_flatMap]
  constructor
  · rintro ⟨⟨i, bex, bdata⟩, hmem, hf⟩
    rw [List.mk_mem_enum_iff_getElem?] at hmem
    dsimp only at hf
    rcases hask : bdata.ask_price with _ | bp <;> rw [hask] at hf <;>
      dsimp only at hf
    · cases hf
    · by_cases hbp : bp = 0
      · rw [if_pos hbp] at hf; cases hf
      · rw [if_neg hbp] at hf
        obtain ⟨j, sex, sdata, sp, hj, hij, hbid, hsp, hmin, rfl⟩ :=
          mem_sellCandidates_iff.mp hf
        exact ⟨i, j, bex, bdata, sex, sdata, bp, sp, hmem, hj, hij, hask, hbp,
          hbid, hsp, hmin, rfl⟩
  · rintro ⟨i, j, bex, bdata, sex, sdata, bp, sp, hi, hj, hij, hask, hbp, hbid,
      hsp, hmin, rfl⟩
    refine ⟨(i, bex, bdata), ?_, ?_⟩
    · rw [List.mk_mem_enum_iff_getElem?]; exact hi
    · dsimp only
      rw [hask]
      dsimp only
      rw [if_neg hbp, mem_sellCandidates_iff]
      exact ⟨j, sex, sdata, sp, hj, hij, hbid, hsp, hmin, rfl⟩

/-- The final sort is stable: filtering the sorted output at any fixed
profit percentage gives exactly the encounter-order candidate sublist at
that profit. -/
theorem sort_filter_stable (l : List Opp) (p : ℚ) :
    (l.insertionSort oppGE).filter (fun o => decide (o.profit_percent = p)) =
      l.filter (fun o => decide (o.profit_percent = p)) := by
  set f : Opp → Bool := fun o => decide (o.profit_percent = p) with hf
  have hall : ∀ a ∈ l.filter f, f a := fun a ha => List.of_mem_filter ha
  have hsub : List.Sublist (l.filter f) (l.insertionSort oppGE) := by
    apply List.sublist_insertionSort
    · apply List.pairwise_of_forall_mem_list
      intro a ha b hb
      have ha' : a.profit_percent = p := by
        have := hall a ha; rwa [hf, decide_eq_true_eq] at this
      have hb' : b.profit_percent = p := by
        have := hall b hb; rwa [hf, decide_eq_true_eq] at this
      unfold oppGE
      rw [ha', hb']
    · exact List.filter_sublist l
  have hsub2 : List.Sublist (l.filter f) ((l.insertionSort oppGE).filter f) := by
    have h1 := hsub.filter f
    rwa [List.filter_eq_self.mpr hall] at h1
  have hperm : List.Perm ((l.insertionSort oppGE).filter f) (l.filter f) :=
    (List.perm_insertionSort oppGE l).filter f
  exact (hsub2.eq_of_length hperm.length_eq.symm).symm

/-- The scenario of the spec's §8 arbitrage-correctness property. -/
def scenarioActive : List (Str × Ticker) :=
  [("X".data, { ask_price := some 100, bid_price := some 99 }),
   ("Y".data, { ask_price := some 98, bid_price := some 97 }),
   ("Z".data, { ask_price := some 102, bid_price := some 101 })]

/-- C1: over any active set, the detector enumerates every ordered pair of
distinct exchanges, takes the buy ask and sell bid, includes a pair iff
`(sell - buy) / buy * 100 ≥ minProfitPercent`, and returns the qualifying
opportunities sorted by profit descending with ties in encounter order
(stable sort); on the spec's concrete scenario, buying on Y and selling on
Z (profit 150/49 ≈ 3.06%) appears, buying on X and selling on Y does not,
and the result is exactly the descending-sorted list. -/
theorem arbitrage_enumeration_sound_complete_sorted (std : Str)
    (active : List (Str × Ticker)) (minP : ℚ) :
    ((get_arbitrage_from_active std active minP).Perm
        (candidates std active minP) ∧
      (∀ o, o ∈ get_arbitrage_from_active std active minP ↔
        ∃ (i j : ℕ) (bex : Str) (bdata : Ticker) (sex : Str) (sdata : Ticker) (bp sp : ℚ),
          active[i]? = some (bex, bdata) ∧ active[j]? = some (sex, sdata) ∧
          i ≠ j ∧
          bdata.ask_price = some bp ∧ bp ≠ 0 ∧
          sdata.bid_price = some sp ∧ sp ≠ 0 ∧
          minP ≤ (sp - bp) / bp * 100 ∧
          o = ⟨std, bex, bp, sex, sp, (sp - bp) / bp * 100⟩) ∧
      (get_arbitrage_from_active std active minP).Sorted oppGE ∧
      (∀ p : ℚ, (get_arbitrage_from_active std active minP).filter
          (fun o => decide (o.profit_percent = p)) =
        (candidates std active minP).filter
          (fun o => decide (o.profit_percent = p)))) ∧
    get_arbitrage_from_active "BTC/USDT".data scenarioActive (1/2) =
      [⟨"BTC/USDT".data, "Y".data, 98, "Z".data, 101, 150/49⟩,
       ⟨"BTC/USDT".data, "Y".data, 98, "X".data, 99, 50/49⟩,
       ⟨"BTC/USDT".data, "X".data, 100, "Z".data, 101, 1⟩] ∧
    (⟨"BTC/USDT".data, "Y".data, 98, "Z".data, 101, 150/49⟩ : Opp) ∈
      get_arbitrage_from_active "BTC/USDT".data scenarioActive (1/2) ∧
    (∀ o ∈ get_arbitrage_from_active "BTC/USDT".data scenarioActive (1/2),
      ¬ (o.buy_exchange = "X".data ∧ o.sell_exchange = "Y".data)) := by
  have hscen : get_arbitrage_from_active "BTC/USDT".data scenarioActive (1/2) =
      [⟨"BTC/USDT".data, "Y".data, 98, "Z".data, 101, 150/49⟩,
       ⟨"BTC/USDT".data, "Y".data, 98, "X".data, 99, 50/49⟩,
       ⟨"BTC/USDT".data, "X".data, 100, "Z".data, 101, 1⟩] := by
    norm_num [get_arbitrage_from_active, candidates, sellCandidates,
      scenarioActive, List.enum, List.enumFrom, List.filterMap_cons, oppGE]
  refine ⟨⟨?_, ?_, ?_, ?_⟩, hscen, ?_, ?_⟩
  · exact List.perm_insertionSort oppGE _
  · intro o
    rw [show (o ∈ get_arbitrage_from_active std active minP) ↔
        o ∈ candidates std active minP from
      (List.perm_insertionSort oppGE _).mem_iff]
    exact mem_candidates_iff
  · exact List.sorted_insertionSort oppGE _
  · intro p
    exact sort_filter_stable _ p
  · rw [hscen]
    exact List.mem_cons_self _ _
  · intro o ho
    rw [hscen] at ho
    rcases List.mem_cons.mp ho with rfl | ho
    · rintro ⟨h1, -⟩; cases h1
    rcases List.mem_cons.mp ho with rfl | ho
    · rintro ⟨h1, -⟩; cases h1
    rcases List.mem_cons.mp ho with rfl | ho
    · rintro ⟨-, h2⟩; cases h2
    · cases ho

/-- Evaluation rule for the detector on a symbol that is present. -/
theorem get_arbitrage_opportunities_eq (r : Repo) (symbol : Option Str)
    (minP now : ℚ) (std : Str) (inner : List (Str × Ticker))
    (hstd : standardize_symbol symbol = .ok std)
    (hdg : dictGet std r.tickerData = some inner) :
    get_arbitrage_opportunities r symbol minP now =
      .ok (get_arbitrage_from_active std (active_exchanges r std now) minP) := by
  unfold get_arbitrage_opportunities
  rw [hstd]
  dsimp only
  rw [hdg]

/-- C2: no opportunity returned by `get_arbitrage_opportunities` has a buy
side whose `ask_price` is `None` or `0`, and none has a sell side whose
`bid_price` is `None` or `0`; each reported `profit_percent` equals
`(sellPrice - buyPrice) / buyPrice * 100` with `buyPrice ≠ 0`, so the
division is never performed with a zero or absent divisor. -/
theorem arbitrage_no_zero_or_none_price_sides (r : Repo) (symbol : Option Str)
    (minP now : ℚ) (ops : List Opp) (std : Str)
    (hstd : standardize_symbol symbol = .ok std)
    (h : get_arbitrage_opportunities r symbol minP now = .ok ops) :
    ∀ o ∈ ops,
      (∃ (i : ℕ) (bex : Str) (bdata : Ticker),
        (active_exchanges r std now)[i]? = some (bex, bdata) ∧
        o.buy_exchange = bex ∧ bdata.ask_price = some o.buy_price ∧
        o.buy_price ≠ 0) ∧
      (∃ (j : ℕ) (sex : Str) (sdata : Ticker),
        (active_exchanges r std now)[j]? = some (sex, sdata) ∧
        o.sell_exchange = sex ∧ sdata.bid_price = some o.sell_price ∧
        o.sell_price ≠ 0) ∧
      o.profit_percent = (o.sell_price - o.buy_price) / o.buy_price * 100 := by
  intro o ho
  unfold get_arbitrage_opportunities at h
  rw [hstd] at h
  dsimp only at h
  rcases hdg : dictGet std r.tickerData with _ | inner <;> rw [hdg] at h <;>
    dsimp only at h
  · rw [Except.ok.injEq] at h
    subst h
    cases ho
  · rw [Except.ok.injEq] at h
    subst h
    unfold get_arbitrage_from_active at ho
    have hmem := (List.perm_insertionSort oppGE _).mem_iff.mp ho
    obtain ⟨i, j, bex, bdata, sex, sdata, bp, sp, hi, hj, hij, hask, hbp, hbid,
      hsp, hmin, rfl⟩ := mem_candidates_iff.mp hmem
    exact ⟨⟨i, bex, bdata, hi, rfl, hask, hbp⟩,
      ⟨j, sex, sdata, hj, rfl, hbid, hsp⟩, rfl⟩

/-- Concrete two-exchange repository used as a witness input. -/
def wTickA : Ticker := { ask_price := some 100, bid_price := some 102 }

def wTickB : Ticker := { ask_price := some 98, bid_price := some 101 }

def wRepo : Repo :=
  { tickerData := [("BTC/USDT".data, [("A".data, wTickA), ("B".data, wTickB)])]
    lastUpdate := [("BTC/USDT".data, [("A".data, (0:ℚ)), ("B".data, (0:ℚ))])]
    callbacks := [] }

def wOppBA : Opp := ⟨"BTC/USDT".data, "B".data, 98, "A".data, 102, 200/49⟩

def wOppAB : Opp := ⟨"BTC/USDT".data, "A".data, 100, "B".data, 101, 1⟩

theorem wRepo_arbitrage :
    get_arbitrage_opportunities wRepo (some "BTC/USDT".data) (1/2) 0 =
      .ok [wOppBA, wOppAB] := by
  rw [get_arbitrage_opportunities_eq wRepo (some "BTC/USDT".data) (1/2) 0
    "BTC/USDT".data [("A".data, wTickA), ("B".data, wTickB)] (by decide) (by decide)]
  rw [Except.ok.injEq]
  norm_num [get_arbitrage_from_active, active_exchanges, candidates,
    sellCandidates, wRepo, wTickA, wTickB, wOppBA, wOppAB, dictGet,
    List.enum, List.enumFrom, List.filterMap_cons, oppGE]

/-- Witness for `arbitrage_no_zero_or_none_price_sides` on `wRepo` at the
opportunity buying on B and selling on A. -/
theorem arbitrage_no_zero_or_none_price_sides_witness :
    (∃ (i : ℕ) (bex : Str) (bdata : Ticker),
      (active_exchanges wRepo "BTC/USDT".data 0)[i]? = some (bex, bdata) ∧
      wOppBA.buy_exchange = bex ∧ bdata.ask_price = some wOppBA.buy_price ∧
      wOppBA.buy_price ≠ 0) ∧
    (∃ (j : ℕ) (sex : Str) (sdata : Ticker),
      (active_exchanges wRepo "BTC/USDT".data 0)[j]? = some (sex, sdata) ∧
      wOppBA.sell_exchange = sex ∧ sdata.bid_price = some wOppBA.sell_price ∧
      wOppBA.sell_price ≠ 0) ∧
    wOppBA.profit_percent =
      (wOppBA.sell_price - wOppBA.buy_price) / wOppBA.buy_price * 100 :=
  arbitrage_no_zero_or_none_price_sides wRepo (some "BTC/USDT".data) (1/2) 0
    [wOppBA, wOppAB] "BTC/USDT".data (by decide) wRepo_arbitrage
    wOppBA (List.mem_cons_self _ _)

/-! ## Update characterization, staleness and callback filtering -/

/-- Full evaluation rule for `update_ticker` when standardization succeeds:
the new snapshot (with its `symbol` key set) is stored under the
standardized symbol and exchange, the timestamp map records `now`, and the
callbacks fire exactly when there was no prior entry or the `mark_price`
changed. -/
theorem update_ticker_eq (r : Repo) (symbol : Option Str) (exchange : Str)
    (ticker : Ticker) (now : ℚ) (std : Str)
    (hstd : standardize_symbol symbol = .ok std) :
    update_ticker r symbol exchange ticker now =
      .ok ⟨{ tickerData := dictSet std
                (dictSet exchange { ticker with symbol := some std }
                  ((dictGet std r.tickerData).getD [])) r.tickerData
             lastUpdate := dictSet std
                (dictSet exchange now ((dictGet std r.lastUpdate).getD []))
                r.lastUpdate
             callbacks := r.callbacks },
           if (match dictGet exchange ((dictGet std r.tickerData).getD []) with
               | none => true
               | some p => decide (p.mark_price ≠ ticker.mark_price)) = true
           then r.callbacks.map
             (fun c => (c, std, exchange, { ticker with symbol := some std }))
           else []⟩ := by
  unfold update_ticker
  rw [hstd]

/-- Membership in the active (non-stale) view of a symbol. -/
theorem mem_active_exchanges {r : Repo} {std : Str} {now : ℚ} {ex : Str}
    {t : Ticker} :
    (ex, t) ∈ active_exchanges r std now ↔
      (ex, t) ∈ (dictGet std r.tickerData).getD [] ∧
        now - (dictGet ex ((dictGet std r.lastUpdate).getD [])).getD 0 < 30 := by
  unfold active_exchanges
  rw [List.mem_filter]
  constructor
  · rintro ⟨hm, hc⟩
    exact ⟨hm, of_decide_eq_true hc⟩
  · rintro ⟨hm, hc⟩
    exact ⟨hm, decide_eq_true hc⟩

/-- C3: an entry written at time `T` participates in arbitrage
consideration at query time `now` precisely when `now - T < 30` (strict
inequality); in particular it is in the active view at `T + 29` and out of
it at `T + 31`, while remaining in storage. -/
theorem staleness_window (r : Repo) (symbol : Option Str) (exchange : Str)
    (ticker : Ticker) (T : ℚ) (std : Str) (res : UpdateResult)
    (hstd : standardize_symbol symbol = .ok std)
    (h : update_ticker r symbol exchange ticker T = .ok res) :
    (dictGet exchange ((dictGet std res.repo.tickerData).getD []) =
      some { ticker with symbol := some std }) ∧
    (∀ now : ℚ, (exchange, { ticker with symbol := some std }) ∈
        active_exchanges res.repo std now ↔ now - T < 30) ∧
    ((exchange, { ticker with symbol := some std }) ∈
      active_exchanges res.repo std (T + 29)) ∧
    (∀ t : Ticker, (exchange, t) ∉ active_exchanges res.repo std (T + 31)) := by
  rw [update_ticker_eq r symbol exchange ticker T std hstd, Except.ok.injEq] at h
  subst h
  dsimp only
  have hstore :
      dictGet std (dictSet std
        (dictSet exchange { ticker with symbol := some std }
          ((dictGet std r.tickerData).getD [])) r.tickerData) =
      some (dictSet exchange { ticker with symbol := some std }
        ((dictGet std r.tickerData).getD [])) := dictGet_dictSet_self _ _ _
  have hts :
      dictGet std (dictSet std
        (dictSet exchange T ((dictGet std r.lastUpdate).getD []))
        r.lastUpdate) =
      some (dictSet exchange T ((dictGet std r.lastUpdate).getD [])) :=
    dictGet_dictSet_self _ _ _
  have htsx : dictGet exchange
      (dictSet exchange T ((dictGet std r.lastUpdate).getD [])) = some T :=
    dictGet_dictSet_self _ _ _
  refine ⟨?_, ?_, ?_, ?_⟩
  · rw [hstore]
    dsimp only [Option.getD_some]
    exact dictGet_dictSet_self _ _ _
  · intro now
    rw [mem_active_exchanges]
    dsimp only
    rw [hstore, hts]
    dsimp only [Option.getD_some]
    rw [htsx]
    dsimp only [Option.getD_some]
    constructor
    · rintro ⟨-, hc⟩
      exact hc
    · intro hc
      exact ⟨mem_dictSet_self _ _ _, hc⟩
  · rw [mem_active_exchanges]
    dsimp only
    rw [hstore, hts]
    dsimp only [Option.getD_some]
    rw [htsx]
    dsimp only [Option.getD_some]
    refine ⟨mem_dictSet_self _ _ _, by linarith⟩
  · intro t hmem
    rw [mem_active_exchanges] at hmem
    dsimp only at hmem
    rw [hstore, hts] at hmem
    dsimp only [Option.getD_some] at hmem
    rw [htsx] at hmem
    dsimp only [Option.getD_some] at hmem
    obtain ⟨-, hc⟩ := hmem
    linarith

/-- The result of the single concrete update used as the staleness
witness. -/
def wRes3 : UpdateResult :=
  ⟨{ tickerData := [("BTC/USDT".data,
        [("E".data, { symbol := some "BTC/USDT".data, mark_price := some 5 })])]
     lastUpdate := [("BTC/USDT".data, [("E".data, (0:ℚ))])]
     callbacks := [] }, []⟩

/-- Witness for `staleness_window`: a concrete update at `T = 0`. -/
theorem staleness_window_witness :
    (dictGet "E".data ((dictGet "BTC/USDT".data wRes3.repo.tickerData).getD []) =
      some { symbol := some "BTC/USDT".data, mark_price := some 5 }) ∧
    (("E".data, ({ symbol := some "BTC/USDT".data, mark_price := some 5 } : Ticker)) ∈
      active_exchanges wRes3.repo "BTC/USDT".data (0 + 29)) ∧
    (∀ t : Ticker, ("E".data, t) ∉
      active_exchanges wRes3.repo "BTC/USDT".data (0 + 31)) := by
  obtain ⟨h1, -, h3, h4⟩ := staleness_window { } (some "BTC/USDT".data) "E".data
    { mark_price := some 5 } 0 "BTC/USDT".data wRes3 (by decide) (by decide)
  exact ⟨h1, h3, h4⟩

/-- Helper: repeated-update prior lookup — after an update stored `val`
under `(std, ex)`, looking that key up again yields `val`. -/
theorem dictGet_after_update {α : Type} (std ex : Str) (val : α)
    (d : List (Str × List (Str × α))) :
    dictGet ex ((dictGet std
        (dictSet std (dictSet ex val ((dictGet std d).getD [])) d)).getD []) =
      some val := by
  rw [dictGet_dictSet_self]
  dsimp only [Option.getD_some]
  exact dictGet_dictSet_self _ _ _

/-- Helper for C4: the exact condition under which the callbacks run. -/
theorem update_events_characterization (r : Repo) (symbol : Option Str)
    (exchange : Str) (ticker : Ticker) (now : ℚ) (std : Str)
    (res : UpdateResult) (hstd : standardize_symbol symbol = .ok std)
    (h : update_ticker r symbol exchange ticker now = .ok res) :
    (dictGet exchange ((dictGet std r.tickerData).getD []) = none →
      res.events = r.callbacks.map
        (fun c => (c, std, exchange, { ticker with symbol := some std }))) ∧
    (∀ p : Ticker,
      dictGet exchange ((dictGet std r.tickerData).getD []) = some p →
      p.mark_price ≠ ticker.mark_price →
      res.events = r.callbacks.map
        (fun c => (c, std, exchange, { ticker with symbol := some std }))) ∧
    (∀ p : Ticker,
      dictGet exchange ((dictGet std r.tickerData).getD []) = some p →
      p.mark_price = ticker.mark_price → res.events = []) := by
  rw [update_ticker_eq r symbol exchange ticker now std hstd,
    Except.ok.injEq] at h
  subst h
  refine ⟨?_, ?_, ?_⟩
  · intro hprior
    dsimp only
    rw [hprior]
    rfl
  · intro p hprior hne
    dsimp only
    rw [hprior]
    dsimp only
    rw [decide_eq_true hne]
    rfl
  · intro p hprior heq
    dsimp only
    rw [hprior]
    dsimp only
    rw [decide_eq_false (fun hh => hh heq)]
    rfl

/-- C4: each registered callback is invoked during an update iff no prior
entry existed for the key or the new snapshot's `mark_price` differs from
the prior entry's; consequently, starting from no prior entry, two updates
with the same `mark_price` fire the callbacks exactly once (on the first
call), and a third update with a changed `mark_price` fires them exactly
once more. -/
theorem callback_notification_filtering :
    (∀ (r : Repo) (symbol : Option Str) (exchange : Str) (ticker : Ticker)
      (now : ℚ) (std : Str) (res : UpdateResult),
      standardize_symbol symbol = .ok std →
      update_ticker r symbol exchange ticker now = .ok res →
      ((dictGet exchange ((dictGet std r.tickerData).getD []) = none →
        res.events = r.callbacks.map
          (fun c => (c, std, exchange, { ticker with symbol := some std }))) ∧
       (∀ p : Ticker,
        dictGet exchange ((dictGet std r.tickerData).getD []) = some p →
        p.mark_price ≠ ticker.mark_price →
        res.events = r.callbacks.map
          (fun c => (c, std, exchange, { ticker with symbol := some std }))) ∧
       (∀ p : Ticker,
        dictGet exchange ((dictGet std r.tickerData).getD []) = some p →
        p.mark_price = ticker.mark_price → res.events = []))) ∧
    (∀ (cs : List ℕ) (t1 t2 t3 : Ticker) (τ1 τ2 τ3 : ℚ)
      (r1 r2 r3 : UpdateResult),
      t1.mark_price = t2.mark_price →
      t2.mark_price ≠ t3.mark_price →
      update_ticker { callbacks := cs } (some "BTC/USDT".data) "E".data t1 τ1 =
        .ok r1 →
      update_ticker r1.repo (some "BTC/USDT".data) "E".data t2 τ2 = .ok r2 →
      update_ticker r2.repo (some "BTC/USDT".data) "E".data t3 τ3 = .ok r3 →
      r1.events = cs.map (fun c => (c, "BTC/USDT".data, "E".data,
        { t1 with symbol := some "BTC/USDT".data })) ∧
      r2.events = [] ∧
      r3.events = cs.map (fun c => (c, "BTC/USDT".data, "E".data,
        { t3 with symbol := some "BTC/USDT".data }))) := by
  constructor
  · intro r symbol exchange ticker now std res hstd h
    exact update_events_characterization r symbol exchange ticker now std res
      hstd h
  · intro cs t1 t2 t3 τ1 τ2 τ3 r1 r2 r3 h12 h23 h1 h2 h3
    have hstd : standardize_symbol (some "BTC/USDT".data) =
        .ok "BTC/USDT".data := by decide
    obtain ⟨c1none, -, -⟩ := update_events_characterization _ _ _ _ _ _ _
      hstd h1
    have e1 : r1.events = cs.map (fun c => (c, "BTC/USDT".data, "E".data,
        { t1 with symbol := some "BTC/USDT".data })) := c1none rfl
    rw [update_ticker_eq _ _ _ _ _ _ hstd, Except.ok.injEq] at h1
    subst h1
    obtain ⟨-, -, c2eq⟩ := update_events_characterization _ _ _ _ _ _ _
      hstd h2
    have e2 : r2.events = [] :=
      c2eq { t1 with symbol := some "BTC/USDT".data }
        (dictGet_after_update _ _ _ _) h12
    rw [update_ticker_eq _ _ _ _ _ _ hstd, Except.ok.injEq] at h2
    subst h2
    obtain ⟨-, c3ne, -⟩ := update_events_characterization _ _ _ _ _ _ _
      hstd h3
    have e3 : r3.events = cs.map (fun c => (c, "BTC/USDT".data, "E".data,
        { t3 with symbol := some "BTC/USDT".data })) :=
      c3ne { t2 with symbol := some "BTC/USDT".data }
        (dictGet_after_update _ _ _ _) h23
    exact ⟨e1, e2, e3⟩

/-- Concrete three-update run for the C4 witness: callback 7 registered,
marks 1, 1, 3. -/
def wT1 : Ticker := { mark_price := some 1 }

def wT2 : Ticker := { mark_price := some 1, bid_price := some 2 }

def wT3 : Ticker := { mark_price := some 3 }

def wR1 : UpdateResult :=
  ⟨{ tickerData := [("BTC/USDT".data,
        [("E".data, { wT1 with symbol := some "BTC/USDT".data })])]
     lastUpdate := [("BTC/USDT".data, [("E".data, (0:ℚ))])]
     callbacks := [7] },
    [(7, "BTC/USDT".data, "E".data, { wT1 with symbol := some "BTC/USDT".data })]⟩

def wR2 : UpdateResult :=
  ⟨{ tickerData := [("BTC/USDT".data,
        [("E".data, { wT2 with symbol := some "BTC/USDT".data })])]
     lastUpdate := [("BTC/USDT".data, [("E".data, (1:ℚ))])]
     callbacks := [7] },
    []⟩

def wR3 : UpdateResult :=
  ⟨{ tickerData := [("BTC/USDT".data,
        [("E".data, { wT3 with symbol := some "BTC/USDT".data })])]
     lastUpdate := [("BTC/USDT".data, [("E".data, (2:ℚ))])]
     callbacks := [7] },
    [(7, "BTC/USDT".data, "E".data, { wT3 with symbol := some "BTC/USDT".data })]⟩

/-- Witness for `callback_notification_filtering`: the concrete run fires
callback 7 exactly on the first and third updates. -/
theorem callback_notification_filtering_witness :
    wR1.events = [7].map (fun c => (c, "BTC/USDT".data, "E".data,
      { wT1 with symbol := some "BTC/USDT".data })) ∧
    wR2.events = [] ∧
    wR3.events = [7].map (fun c => (c, "BTC/USDT".data, "E".data,
      { wT3 with symbol := some "BTC/USDT".data })) :=
  callback_notification_filtering.2 [7] wT1 wT2 wT3 0 1 2 wR1 wR2 wR3
    (by decide) (by decide) (by decide) (by decide) (by decide)

/-! ## get_ticker and the truthiness of its exchange argument -/

/-- C10: `get_ticker` branches on `if exchange:` — truthiness, not an
`is None` test — so for a stored symbol the empty-string exchange id `""`
yields the full exchange-to-snapshot mapping, identical to passing `None`,
rather than a single-exchange lookup (which would return Python `None` for
the unknown exchange id `""`). -/
theorem get_ticker_empty_exchange_is_mapping (r : Repo) (symbol : Option Str)
    (std : Str) (inner : List (Str × Ticker))
    (hstd : standardize_symbol symbol = .ok std)
    (hdg : dictGet std r.tickerData = some inner) :
    get_ticker r symbol (some []) = .ok (.mapping inner) ∧
    get_ticker r symbol (some []) = get_ticker r symbol none := by
  have h1 : get_ticker r symbol (some []) = .ok (.mapping inner) := by
    unfold get_ticker
    rw [hstd]
    dsimp only
    rw [hdg]
    rfl
  have h2 : get_ticker r symbol none = .ok (.mapping inner) := by
    unfold get_ticker
    rw [hstd]
    dsimp only
    rw [hdg]
    rfl
  exact ⟨h1, h1.trans h2.symm⟩

/-- Witness for `get_ticker_empty_exchange_is_mapping` on the concrete
two-exchange repository. -/
theorem get_ticker_empty_exchange_is_mapping_witness :
    get_ticker wRepo (some "BTC/USDT".data) (some []) =
      .ok (.mapping [("A".data, wTickA), ("B".data, wTickB)]) ∧
    get_ticker wRepo (some "BTC/USDT".data) (some []) =
      get_ticker wRepo (some "BTC/USDT".data) none :=
  get_ticker_empty_exchange_is_mapping wRepo (some "BTC/USDT".data)
    "BTC/USDT".data [("A".data, wTickA), ("B".data, wTickB)]
    (by decide) (by decide)

/-! ## The ingestion pump (`update_repository_from_websocket`, loop body)

One polling cycle of the pump (src/exchange_data_repository.py lines
214-279), as a pure decision: either the cycle is skipped (no
`repo.update_ticker` call) or the repaired snapshot is written via
`update_ticker`.  The Kraken special-case block (lines 219-246) runs first.
Adapters only ever place floats or Python `None` in the price-like keys, so
the `float(...)` coercions of the Kraken block are the identity on present
numeric values and raise `TypeError` exactly on `None`. -/

/-- A polled data dict as returned by an adapter's `get_data`.  The outer
`Option` of each field records whether the key is present in the dict; the
inner value `none` is Python `None`.  `extraKeys` stands for any further
keys, which influence only `if data:` truthiness. -/
structure RawData where
  symbol : Option (Option Str) := none
  mark_price : Option (Option ℚ) := none
  bid_price : Option (Option ℚ) := none
  ask_price : Option (Option ℚ) := none
  volume_24h : Option (Option ℚ) := none
  last : Option (Option ℚ) := none
  extraKeys : Bool := false
deriving DecidableEq

/-- `if data:` — dict truthiness (the dict has at least one key). -/
def rawTruthy (d : RawData) : Bool :=
  d.symbol.isSome || d.mark_price.isSome || d.bid_price.isSome ||
    d.ask_price.isSome || d.volume_24h.isSome || d.last.isSome || d.extraKeys

/-- `"symbol" not in data or not data["symbol"]`. -/
def symbolFalsy (d : RawData) : Bool :=
  match d.symbol with
  | none => true
  | some none => true
  | some (some s) => s.isEmpty

/-- The placeholder dict the Kraken block substitutes when `get_data`
returned `None` (lines 224-231). -/
def krakenPlaceholder : RawData :=
  { symbol := some (some "BTC/USD".data), mark_price := some none,
    bid_price := some none, ask_price := some none, volume_24h := some none }

/-- The Kraken repair loop's only value-changing effect (lines 238-246): a
present numeric `mark_price` equal to `0` is replaced by `float(data
["last"])` when a `last` key exists — where `float(None)` raises and the
handler stores `None` instead.  All other coercions are the identity. -/
def krakenRepairMark (mark last : Option (Option ℚ)) : Option (Option ℚ) :=
  match mark with
  | some (some q) =>
    if q = 0 then
      match last with
      | some (some lq) => some (some lq)
      | some none => some none
      | none => some (some q)
    else some (some q)
  | v => v

/-- The Kraken block's own symbol default (lines 233-235). -/
def krakenEnsure (d : RawData) : RawData :=
  if symbolFalsy d then { d with symbol := some (some "BTC/USD".data) } else d

/-- The whole Kraken block: placeholder on `None`, symbol default,
repair. -/
def krakenPrep (polled : Option RawData) : RawData :=
  let d := krakenEnsure (polled.getD krakenPlaceholder)
  { d with mark_price := krakenRepairMark d.mark_price d.last }

/-- `default_symbols` (lines 206-212). -/
def default_symbols : List (Str × Str) :=
  [("BYBIT-spot".data, "BTC/USDT".data), ("KRAKEN-spot".data, "BTC/USD".data),
   ("HUOBI-spot".data, "BTC/USDT".data), ("OKX-spot".data, "BTC/USDT".data),
   ("BITFINEX-spot".data, "BTC/USD".data)]

/-- Symbol default for any exchange (lines 249-251). -/
def ensureSymbol (exchange_name : Str) (d : RawData) : RawData :=
  if symbolFalsy d then
    { d with symbol := some (some
        ((dictGet exchange_name default_symbols).getD "BTC/USDT".data)) }
  else d

/-- `symbol = data.get("symbol")`. -/
def rawSymbol (d : RawData) : Option Str :=
  match d.symbol with
  | some (some s) => some s
  | _ => none

/-- Required-field fill (lines 255-259): a missing price key is inserted
with value `None`. -/
def fillMissing (d : RawData) : RawData :=
  { d with mark_price := some (d.mark_price.getD none)
           bid_price := some (d.bid_price.getD none)
           ask_price := some (d.ask_price.getD none)
           volume_24h := some (d.volume_24h.getD none) }

/-- `data.get(field) in [0, None]` for a price-like field. -/
def priceDead (v : Option (Option ℚ)) : Bool :=
  match v with
  | none => true
  | some none => true
  | some (some q) => decide (q = 0)

/-- The pump's decision for one cycle: skip, or call
`repo.update_ticker(symbol, exchange_name, data)`. -/
inductive PumpAction where
  | skip
  | write (symbol : Option Str) (d : RawData)
deriving DecidableEq

/-- The common part of the loop body (lines 248-268), after the Kraken
block. -/
def pump_body (exchange_name : Str) (data : Option RawData) : PumpAction :=
  match data with
  | none => .skip
  | some d =>
    if rawTruthy d then
      let d1 := ensureSymbol exchange_name d
      let d2 := fillMissing d1
      if priceDead d2.mark_price && priceDead d2.bid_price &&
          priceDead d2.ask_price then .skip
      else .write (rawSymbol d2) d2
    else .skip

/-- One full pump cycle on the polled adapter data. -/
def pump_cycle (exchange_name : Str) (polled : Option RawData) : PumpAction :=
  if exchange_name = "KRAKEN-spot".data then
    pump_body exchange_name (some (krakenPrep polled))
  else pump_body exchange_name polled

theorem priceDead_some_getD (v : Option (Option ℚ)) :
    priceDead (some (v.getD none)) = priceDead v := by
  rcases v with _ | ⟨_ | q⟩ <;> rfl

theorem ensureSymbol_mark (ex : Str) (d : RawData) :
    (ensureSymbol ex d).mark_price = d.mark_price := by
  unfold ensureSymbol
  split <;> rfl

theorem ensureSymbol_bid (ex : Str) (d : RawData) :
    (ensureSymbol ex d).bid_price = d.bid_price := by
  unfold ensureSymbol
  split <;> rfl

theorem ensureSymbol_ask (ex : Str) (d : RawData) :
    (ensureSymbol ex d).ask_price = d.ask_price := by
  unfold ensureSymbol
  split <;> rfl

theorem krakenEnsure_mark (d : RawData) :
    (krakenEnsure d).mark_price = d.mark_price := by
  unfold krakenEnsure
  split <;> rfl

theorem krakenEnsure_bid (d : RawData) :
    (krakenEnsure d).bid_price = d.bid_price := by
  unfold krakenEnsure
  split <;> rfl

theorem krakenEnsure_ask (d : RawData) :
    (krakenEnsure d).ask_price = d.ask_price := by
  unfold krakenEnsure
  split <;> rfl

theorem krakenEnsure_last (d : RawData) :
    (krakenEnsure d).last = d.last := by
  unfold krakenEnsure
  split <;> rfl

/-- Evaluation of one pump-body step on a truthy dict. -/
theorem pump_body_eval (ex : Str) (d : RawData) (ht : rawTruthy d = true) :
    pump_body ex (some d) =
      if priceDead d.mark_price && priceDead d.bid_price &&
          priceDead d.ask_price then .skip
      else .write (rawSymbol (fillMissing (ensureSymbol ex d)))
        (fillMissing (ensureSymbol ex d)) := by
  simp only [pump_body]
  rw [if_pos ht]
  rw [show priceDead (fillMissing (ensureSymbol ex d)).mark_price =
      priceDead d.mark_price from by
    show priceDead (some ((ensureSymbol ex d).mark_price.getD none)) = _
    rw [priceDead_some_getD, ensureSymbol_mark]]
  rw [show priceDead (fillMissing (ensureSymbol ex d)).bid_price =
      priceDead d.bid_price from by
    show priceDead (some ((ensureSymbol ex d).bid_price.getD none)) = _
    rw [priceDead_some_getD, ensureSymbol_bid]]
  rw [show priceDead (fillMissing (ensureSymbol ex d)).ask_price =
      priceDead d.ask_price from by
    show priceDead (some ((ensureSymbol ex d).ask_price.getD none)) = _
    rw [priceDead_some_getD, ensureSymbol_ask]]

theorem pump_body_skip_of_dead (ex : Str) (d : RawData)
    (hm : priceDead d.mark_price = true) (hb : priceDead d.bid_price = true)
    (ha : priceDead d.ask_price = true) : pump_body ex (some d) = .skip := by
  by_cases ht : rawTruthy d = true
  · rw [pump_body_eval ex d ht, hm, hb, ha]
    rfl
  · simp only [pump_body]
    rw [if_neg ht]

theorem isSome_of_priceDead_false {v : Option (Option ℚ)}
    (h : priceDead v = false) : v.isSome = true := by
  rcases v with _ | w
  · cases h
  · rfl

theorem pump_body_write_of_live (ex : Str) (d : RawData)
    (h : priceDead d.mark_price = false ∨ priceDead d.bid_price = false ∨
      priceDead d.ask_price = false) :
    ∃ s d2, pump_body ex (some d) = .write s d2 := by
  have ht : rawTruthy d = true := by
    unfold rawTruthy
    rcases h with h | h | h <;>
      simp [isSome_of_priceDead_false h]
  rw [pump_body_eval ex d ht]
  have hc : (priceDead d.mark_price && priceDead d.bid_price &&
      priceDead d.ask_price) = false := by
    rcases h with h | h | h <;> simp [h]
  rw [hc]
  exact ⟨_, _, rfl⟩

/-- Dead `mark_price` stays dead through the Kraken repair, unless it is
exactly `0` and a numeric non-zero `last` key is present. -/
theorem krakenRepairMark_dead {mark last : Option (Option ℚ)}
    (hm : priceDead mark = true)
    (hx : ∀ lq : ℚ, mark = some (some 0) → last = some (some lq) → lq = 0) :
    priceDead (krakenRepairMark mark last) = true := by
  rcases mark with _ | ⟨_ | q⟩
  · exact hm
  · exact hm
  · have hq : q = 0 := by
      have := of_decide_eq_true hm
      exact this
    subst hq
    simp only [krakenRepairMark]
    rw [if_pos trivial]
    rcases hl : last with _ | ⟨_ | lq⟩
    · exact hm
    · rfl
    · have : lq = 0 := hx lq rfl hl
      subst this
      exact hm

/-- A live `mark_price` passes through the Kraken repair unchanged. -/
theorem krakenRepairMark_live {mark last : Option (Option ℚ)}
    (hm : priceDead mark = false) : krakenRepairMark mark last = mark := by
  rcases mark with _ | ⟨_ | q⟩
  · rfl
  · cases hm
  · have hq : ¬ q = 0 := by
      intro hh
      rw [hh] at hm
      cases hm
    simp only [krakenRepairMark]
    rw [if_neg hq]

/-- C7 counterexample: under `"KRAKEN-spot"`, a polled snapshot whose
`mark_price`, `bid_price` and `ask_price` are all `0`/`None` — but which
carries a numeric non-zero `last` key — is repaired (the `last` value is
substituted into the zero `mark_price` by lines 238-246) and then WRITTEN,
not skipped. -/
theorem pump_kraken_writes_priceless_snapshot :
    (priceDead (some (some (0:ℚ))) = true ∧
      priceDead (some (none : Option ℚ)) = true) ∧
    pump_cycle "KRAKEN-spot".data
      (some { mark_price := some (some 0), bid_price := some (some 0),
              ask_price := some none, last := some (some 5) }) =
      .write (some "BTC/USD".data)
        { symbol := some (some "BTC/USD".data), mark_price := some (some 5),
          bid_price := some (some 0), ask_price := some none,
          volume_24h := some none, last := some (some 5) } := by
  decide

/-- C7 (amended): a polled snapshot all of whose three price fields are
`None` or `0` is skipped without an `update_ticker` call — except under
`KRAKEN-spot` when `mark_price` is exactly `0` and a numeric non-zero
`last` key is present, in which case the repair step substitutes it and
the snapshot is written; a polled snapshot with at least one price field
that is neither `None` nor `0` is always written via `update_ticker`; and
the spec's concrete rejection example (`mark=None, bid=0, ask=None,
volume=50`) is skipped for every exchange. -/
theorem pump_rejects_priceless_snapshots (ex : Str) (d : RawData) :
    ((priceDead d.mark_price = true ∧ priceDead d.bid_price = true ∧
        priceDead d.ask_price = true) →
      (ex = "KRAKEN-spot".data →
        ∀ lq : ℚ, d.mark_price = some (some 0) → d.last = some (some lq) →
          lq = 0) →
      pump_cycle ex (some d) = .skip) ∧
    ((priceDead d.mark_price = false ∨ priceDead d.bid_price = false ∨
        priceDead d.ask_price = false) →
      ∃ s d2, pump_cycle ex (some d) = .write s d2) ∧
    pump_cycle ex (some { mark_price := some none,
                          bid_price := some (some 0),
                          ask_price := some none,
                          volume_24h := some (some 50) }) = .skip := by
  refine ⟨?_, ?_, ?_⟩
  · rintro ⟨hm, hb, ha⟩ hx
    unfold pump_cycle
    by_cases hex : ex = "KRAKEN-spot".data
    · rw [if_pos hex]
      apply pump_body_skip_of_dead
      · show priceDead (krakenRepairMark (krakenEnsure d).mark_price
          (krakenEnsure d).last) = true
        rw [krakenEnsure_mark, krakenEnsure_last]
        exact krakenRepairMark_dead hm (hx hex)
      · show priceDead (krakenEnsure d).bid_price = true
        rw [krakenEnsure_bid]
        exact hb
      · show priceDead (krakenEnsure d).ask_price = true
        rw [krakenEnsure_ask]
        exact ha
    · rw [if_neg hex]
      exact pump_body_skip_of_dead ex d hm hb ha
  · intro h
    unfold pump_cycle
    by_cases hex : ex = "KRAKEN-spot".data
    · rw [if_pos hex]
      apply pump_body_write_of_live
      rcases h with h | h | h
      · left
        show priceDead (krakenRepairMark (krakenEnsure d).mark_price
          (krakenEnsure d).last) = false
        rw [krakenEnsure_mark, krakenEnsure_last, krakenRepairMark_live h]
        exact h
      · right; left
        show priceDead (krakenEnsure d).bid_price = false
        rw [krakenEnsure_bid]
        exact h
      · right; right
        show priceDead (krakenEnsure d).ask_price = false
        rw [krakenEnsure_ask]
        exact h
    · rw [if_neg hex]
      exact pump_body_write_of_live ex d h
  · unfold pump_cycle
    by_cases hex : ex = "KRAKEN-spot".data
    · rw [if_pos hex]
      apply pump_body_skip_of_dead <;> decide
    · rw [if_neg hex]
      apply pump_body_skip_of_dead <;> decide

/-- Witness for `pump_rejects_priceless_snapshots`: under `BYBIT-spot`,
the all-dead snapshot is skipped and a snapshot with a usable ask price is
written. -/
theorem pump_rejects_priceless_snapshots_witness :
    pump_cycle "BYBIT-spot".data
      (some { mark_price := some none, bid_price := some (some 0),
              ask_price := some none, volume_24h := some (some 50) }) =
      .skip ∧
    ∃ s d2, pump_cycle "BYBIT-spot".data
      (some { ask_price := some (some 5) }) = .write s d2 :=
  ⟨(pump_rejects_priceless_snapshots "BYBIT-spot".data
      { mark_price := some none, bid_price := some (some 0),
        ask_price := some none, volume_24h := some (some 50) }).1
      ⟨rfl, by decide, rfl⟩ (fun hex => absurd hex (by decide)),
   (pump_rejects_priceless_snapshots "BYBIT-spot".data
      { ask_price := some (some 5) }).2.1
      (Or.inr (Or.inr (by decide)))⟩

namespace RefModel

/-! ## Reference-level model (object identity and in-place mutation)

Python dicts are heap objects.  The value-level model above is adequate for
functional claims; the claims about defensive copying and snapshot handoff
are about *object identity*, so here snapshot dicts live in an explicit
heap (`Heap`, a reference is an index) and the repository stores
references.  The outer/inner dict containers of the repository are written
by value; `.copy()` of a container produces a fresh container holding the
same snapshot references, so a returned mapping is modelled by the list of
shared references it holds. -/

abbrev Ref := ℕ

abbrev Heap := List Ticker

/-- Dereference a snapshot dict. -/
def readRef (h : Heap) (r : Ref) : Ticker := h.getD r {}

/-- Mutate a snapshot dict in place. -/
def writeRef (h : Heap) (r : Ref) (t : Ticker) : Heap := h.set r t

/-- Repository state at reference level: `_ticker_data` maps
`(symbol, exchange)` to the stored snapshot-dict reference. -/
structure RepoR where
  tickerData : List (Str × List (Str × Ref)) := []
  lastUpdate : List (Str × List (Str × ℚ)) := []
deriving DecidableEq

/-- `update_ticker` at reference level (lines 26-50):
`ticker_data['symbol'] = std_symbol` mutates the CALLER's dict, and
`self._ticker_data[std_symbol][exchange] = ticker_data` stores that same
dict reference — no copy is made anywhere. -/
def update_ticker_ref (h : Heap) (r : RepoR) (symbol : Option Str)
    (exchange : Str) (tref : Ref) (now : ℚ) : Except Unit (Heap × RepoR) :=
  match standardize_symbol symbol with
  | .error e => .error e
  | .ok std =>
    let h2 := writeRef h tref { readRef h tref with symbol := some std }
    let inner := (dictGet std r.tickerData).getD []
    .ok (h2,
      { tickerData := dictSet std (dictSet exchange tref inner) r.tickerData
        lastUpdate := dictSet std
          (dictSet exchange now ((dictGet std r.lastUpdate).getD []))
          r.lastUpdate })

/-- What `get_ticker` returns at reference level. -/
inductive GetResultR where
  | pyNone
  | snapshot (r : Ref)
  | mapping (m : List (Str × Ref))
deriving DecidableEq

/-- `get_ticker` at reference level (lines 52-72): the single-exchange
branch returns `self._ticker_data[std_symbol].get(exchange)` — the stored
dict itself; the all-exchanges branch returns
`self._ticker_data[std_symbol].copy()` — a fresh container with the same
snapshot references. -/
def get_ticker_ref (r : RepoR) (symbol : Option Str)
    (exchange : Option Str) : Except Unit GetResultR :=
  match standardize_symbol symbol with
  | .error e => .error e
  | .ok std =>
    match dictGet std r.tickerData with
    | none => .ok .pyNone
    | some inner =>
      if pyTruthy exchange then
        match dictGet (exchange.getD []) inner with
        | none => .ok .pyNone
        | some t => .ok (.snapshot t)
      else .ok (.mapping inner)

/-- `get_all_tickers` (lines 74-82): `{symbol: data.copy() for ...}` —
fresh outer and inner containers holding the same snapshot references. -/
def get_all_tickers_ref (r : RepoR) : List (Str × List (Str × Ref)) :=
  r.tickerData

/-- The Bybit adapter (src/bybit_spots.py): `get_data` returns `self.data`,
the same dict object on every call. -/
structure BybitSpotWebSocket where
  dataRef : Ref

/-- `get_data` (src/bybit_spots.py lines 72-73). -/
def BybitSpotWebSocket.get_data (w : BybitSpotWebSocket) : Ref := w.dataRef

/-- The concrete one-entry repository used in the C5 counterexample. -/
def repoR0 : RepoR := { tickerData := [("BTC/USDT".data, [("E".data, 0)])] }

/-- Its heap: the stored snapshot dict is object `0`. -/
def heapR0 : Heap := [{ bid_price := some 1 }]

/-- C5 counterexample: `get_ticker(symbol, exchange)` returns the STORED
snapshot dict itself (reference `0`), so mutating the returned snapshot
changes the value the repository's entry dereferences to on a subsequent
read — the read operations do not return defensive copies. -/
theorem get_ticker_exposes_internal_snapshot :
    get_ticker_ref repoR0 (some "BTC/USDT".data) (some "E".data) =
      .ok (.snapshot 0) ∧
    dictGet "E".data ((dictGet "BTC/USDT".data repoR0.tickerData).getD []) =
      some 0 ∧
    readRef (writeRef heapR0 0 { bid_price := some 2 }) 0 =
      { bid_price := some 2 } ∧
    readRef heapR0 0 ≠ { bid_price := some 2 } := by
  decide

/-- C5 (amended): `get_ticker` with a (truthy) exchange returns exactly the
stored snapshot reference (no copy); `get_ticker` without an exchange and
`get_all_tickers` return fresh containers (so the repository's mapping
structure cannot be altered through them) whose snapshot references alias
storage — and a write through any returned reference is observed by the
repository's entry. -/
theorem get_reads_alias_storage (r : RepoR) (symbol : Option Str)
    (std : Str) (inner : List (Str × Ref)) (ex : Str) (tref : Ref)
    (hstd : standardize_symbol symbol = .ok std)
    (hinner : dictGet std r.tickerData = some inner)
    (hex : ex ≠ []) (href : dictGet ex inner = some tref) :
    get_ticker_ref r symbol (some ex) = .ok (.snapshot tref) ∧
    get_ticker_ref r symbol none = .ok (.mapping inner) ∧
    get_all_tickers_ref r = r.tickerData ∧
    (∀ (hp : Heap) (t : Ticker), tref < hp.length →
      readRef (writeRef hp tref t) tref = t) := by
  have hptruthy : pyTruthy (some ex) = true := by
    rcases ex with _ | ⟨c, cs⟩
    · exact absurd rfl hex
    · rfl
  refine ⟨?_, ?_, rfl, ?_⟩
  · simp [get_ticker_ref, hstd, hinner, hptruthy, href]
  · simp [get_ticker_ref, hstd, hinner, pyTruthy]
  · intro hp t hlen
    unfold readRef writeRef
    rw [List.getD_eq_getElem?_getD, List.getElem?_set_self hlen]
    rfl

/-- Witness for `get_reads_alias_storage` on the concrete repository. -/
theorem get_reads_alias_storage_witness :
    get_ticker_ref repoR0 (some "BTC/USDT".data) (some "E".data) =
      .ok (.snapshot 0) ∧
    get_ticker_ref repoR0 (some "BTC/USDT".data) none =
      .ok (.mapping [("E".data, 0)]) ∧
    readRef (writeRef heapR0 0 { bid_price := some 2 }) 0 =
      { bid_price := some 2 } := by
  obtain ⟨h1, h2, -, h4⟩ := get_reads_alias_storage repoR0
    (some "BTC/USDT".data) "BTC/USDT".data [("E".data, 0)] "E".data 0
    (by decide) (by decide) (by decide) (by decide)
  exact ⟨h1, h2, h4 heapR0 { bid_price := some 2 } (by decide)⟩

/-- The adapter instance of the C6 counterexample: its latest-snapshot
field is dict object `0`. -/
def bybitW : BybitSpotWebSocket := ⟨0⟩

/-- C6 counterexample: handing the Bybit adapter's snapshot
(`bybitW.get_data`, dict object `0`) to `update_ticker` mutates the
caller's dict (its `symbol` key is set to the standardized symbol, so the
heap cell changes value) and stores that same dict object in the
repository — the snapshot is neither immutable nor copied on handoff. -/
theorem update_ticker_mutates_and_shares_snapshot :
    update_ticker_ref [({ mark_price := some 5 } : Ticker)] { }
        (some "BTCUSDT".data) "BYBIT-spot".data bybitW.get_data 0 =
      .ok ([({ symbol := some "BTC/USDT".data, mark_price := some 5 } : Ticker)],
        { tickerData := [("BTC/USDT".data, [("BYBIT-spot".data, 0)])]
          lastUpdate := [("BTC/USDT".data, [("BYBIT-spot".data, 0)])] }) ∧
    readRef [({ mark_price := some 5 } : Ticker)] bybitW.get_data ≠
      { symbol := some "BTC/USDT".data, mark_price := some 5 } ∧
    bybitW.get_data = 0 := by
  decide

/-- C6 (amended): `update_ticker` stores the caller's snapshot dict by
reference — after a pump handoff the adapter's latest-snapshot dict and
the repository entry are the same object — and its only heap effect is to
mutate that dict by setting its `symbol` key to the standardized
symbol. -/
theorem update_ticker_stores_reference_and_sets_symbol (hp : Heap)
    (r : RepoR) (symbol : Option Str) (exchange : Str) (tref : Ref)
    (now : ℚ) (std : Str) (hp2 : Heap) (r2 : RepoR)
    (hstd : standardize_symbol symbol = .ok std)
    (hu : update_ticker_ref hp r symbol exchange tref now = .ok (hp2, r2)) :
    dictGet exchange ((dictGet std r2.tickerData).getD []) = some tref ∧
    hp2 = writeRef hp tref { readRef hp tref with symbol := some std } := by
  unfold update_ticker_ref at hu
  rw [hstd] at hu
  dsimp only at hu
  rw [Except.ok.injEq, Prod.mk.injEq] at hu
  obtain ⟨hh, hr⟩ := hu
  subst hh
  subst hr
  refine ⟨?_, rfl⟩
  dsimp only
  exact dictGet_after_update _ _ _ _

/-- Witness for `update_ticker_stores_reference_and_sets_symbol` on the
concrete Bybit handoff. -/
theorem update_ticker_stores_reference_witness :
    dictGet "BYBIT-spot".data
      ((dictGet "BTC/USDT".data
        ([("BTC/USDT".data, [("BYBIT-spot".data, 0)])] :
          List (Str × List (Str × Ref)))).getD []) = some bybitW.get_data ∧
    [({ symbol := some "BTC/USDT".data, mark_price := some 5 } : Ticker)] =
      writeRef [({ mark_price := some 5 } : Ticker)] bybitW.get_data
        { readRef [({ mark_price := some 5 } : Ticker)] bybitW.get_data with
          symbol := some "BTC/USDT".data } :=
  update_ticker_stores_reference_and_sets_symbol
    [({ mark_price := some 5 } : Ticker)] { } (some "BTCUSDT".data)
    "BYBIT-spot".data bybitW.get_data 0 "BTC/USDT".data
    [({ symbol := some "BTC/USDT".data, mark_price := some 5 } : Ticker)]
    { tickerData := [("BTC/USDT".data, [("BYBIT-spot".data, 0)])]
      lastUpdate := [("BTC/USDT".data, [("BYBIT-spot".data, 0)])] }
    (by decide) (by decide)

end RefModel

end Crypto
